import Mathlib

/-!
Verification development for the space-invaders-style game core:
a shallow embedding of `src/src/utils/ObjectPool.js`, the particle
implementations (`src/unnamed/part_000`, `src/src/effects/ExplosionEffect.js`),
`src/unnamed/part_000`'s `ParticleSystem.createExplosion`, and
`src/src/core/GameLoop.js`, together with theorems settling the spec's
claims about them.

Modelling conventions:
- JS object identities are modelled as natural-number ids; a factory call
  produces a fresh id (`factoryCount` plays the role of the allocator).
- The one externally observable field of a pooled object is modelled as a
  natural number held in `store`; the user-configurable `reset` function is
  `resetFn : Nat -> Option Nat` (`none` models a reset function that throws).
- A JS method that may `throw` is modelled as returning `Option`;
  `none` means the call threw.  All mutations that the source performs
  after a potential throw-site are absent from the `none` path, exactly as
  in the source.
- Millisecond quantities are rationals, since the JS numbers involved
  (1000/60, 0.98, ...) are exact in the source text.
-/

namespace SpaceInvaders

/-! ### ObjectPool (src/src/utils/ObjectPool.js) -/

/-- Derived configuration of a pool, after the constructor has applied the
JS defaulting rules.  `factoryVal` is the field value the user factory puts
into a freshly constructed object. -/
structure PoolConfig where
  resetFn : Nat → Option Nat
  factoryVal : Nat
  initialSize : Nat
  maxSize : Nat
  autoExpand : Bool

/-- Raw constructor options, before JS defaulting (`config.initialSize`,
`config.maxSize` may be absent, `config.reset` may be absent,
`config.autoExpand` may be absent). -/
structure PoolOptions where
  reset : Option (Nat → Option Nat)
  factoryVal : Nat
  initialSize : Option Nat
  maxSize : Option Nat
  autoExpand : Option Bool

/-- JS `x || d` for an optional numeric option: `0` is falsy, so both a
missing option and an explicit `0` yield the default. -/
def jsOrDefault (v : Option Nat) (d : Nat) : Nat :=
  match v with
  | none => d
  | some n => if n = 0 then d else n

/-- The constructor's option processing:
`_reset = config.reset || ((obj) => obj)`,
`_initialSize = Math.max(0, config.initialSize || 100)`,
`_maxSize = Math.max(this._initialSize, config.maxSize || 1000)`,
`_autoExpand = config.autoExpand !== false`. -/
def PoolOptions.derive (o : PoolOptions) : PoolConfig :=
  { resetFn := o.reset.getD (fun v => some v)
    factoryVal := o.factoryVal
    initialSize := max 0 (jsOrDefault o.initialSize 100)
    maxSize := max (max 0 (jsOrDefault o.initialSize 100)) (jsOrDefault o.maxSize 1000)
    autoExpand := o.autoExpand ≠ some false }

/-- The pool state: `pool` is the free list `this._pool` (a JS array,
pushed/popped at the tail), `activeObjects` is the JS `Set`
`this._activeObjects`, `store` gives each instance's observable field,
and `factoryCount` is the number of factory calls so far (the next fresh
object identity). -/
structure ObjectPool where
  factoryCount : Nat
  pool : List Nat
  activeObjects : Finset Nat
  store : Nat → Nat

namespace ObjectPool

/-- `get availableSize() { return this._pool.length; }` -/
def availableSize (s : ObjectPool) : Nat := s.pool.length

/-- `get activeSize() { return this._activeObjects.size; }` -/
def activeSize (s : ObjectPool) : Nat := s.activeObjects.card

/-- `get totalSize() { return this.availableSize + this.activeSize; }` -/
def totalSize (s : ObjectPool) : Nat := availableSize s + activeSize s

/-- The constructor body after option processing: `_initializePool` pushes
`initialSize` factory results onto the free list (ids `0 .. initialSize-1`,
in push order), with no object active. -/
def mkPool (cfg : PoolConfig) : ObjectPool :=
  { factoryCount := cfg.initialSize
    pool := List.range cfg.initialSize
    activeObjects := ∅
    store := fun _ => cfg.factoryVal }

/-- `acquire()`.  If the free list is empty: throw (`none`) unless
`autoExpand && totalSize < maxSize`, in which case a fresh object is
constructed by the factory.  Otherwise `this._pool.pop()` removes and
returns the LAST element of the free list.  Either way the returned object
is added to `_activeObjects`.  (`pool.pop()` on a non-empty JS array
returns the last element, modelled by matching on `getLast?`.) -/
def acquire (cfg : PoolConfig) (s : ObjectPool) : Option (ObjectPool × Nat) :=
  match s.pool.getLast? with
  | none =>
      if ¬cfg.autoExpand ∨ cfg.maxSize ≤ totalSize s then none
      else
        some ({ factoryCount := s.factoryCount + 1
                pool := s.pool
                activeObjects := insert s.factoryCount s.activeObjects
                store := Function.update s.store s.factoryCount cfg.factoryVal },
              s.factoryCount)
  | some object =>
      some ({ s with pool := s.pool.dropLast
                     activeObjects := insert object s.activeObjects }, object)

/-- `release(object)`.  Throws (`none`) when the object is not in
`_activeObjects`.  Otherwise runs `this._reset(object)` inside the `try`
block: if the reset function throws, the error is wrapped and rethrown and
neither the `delete` nor the `push` below it executes; on success the
object moves from the active set to the tail of the free list with its
field rewritten by the reset function. -/
def release (cfg : PoolConfig) (s : ObjectPool) (object : Nat) : Option ObjectPool :=
  if object ∉ s.activeObjects then none
  else
    match cfg.resetFn (s.store object) with
    | none => none
    | some v =>
        some { s with store := Function.update s.store object v
                      activeObjects := s.activeObjects.erase object
                      pool := s.pool ++ [object] }

/-- A call against the pool API. -/
inductive PoolOp where
  | acquireOp : PoolOp
  | releaseOp : Nat → PoolOp

/-- One API call; a call that throws leaves the state unchanged (every
mutation in the source happens after the corresponding throw-site). -/
def stepOp (cfg : PoolConfig) (s : ObjectPool) : PoolOp → ObjectPool
  | .acquireOp =>
      match acquire cfg s with
      | some (s', _) => s'
      | none => s
  | .releaseOp object =>
      match release cfg s object with
      | some s' => s'
      | none => s

/-- A sequence of API calls. -/
def runOps (cfg : PoolConfig) (s : ObjectPool) : List PoolOp → ObjectPool
  | [] => s
  | op :: ops => runOps cfg (stepOp cfg s op) ops

/-- `n` consecutive `acquire()` calls, failing (`none`) as soon as one
call throws. -/
def acquireN (cfg : PoolConfig) (s : ObjectPool) : Nat → Option ObjectPool
  | 0 => some s
  | n + 1 => (acquire cfg s).bind fun p => acquireN cfg p.1 n

/-- Popping from a free list with last element `x` returns `x` and moves it
to the active set, leaving every other component of the state unchanged. -/
theorem acquire_concat (cfg : PoolConfig) (s : ObjectPool) (x : Nat) :
    acquire cfg { s with pool := s.pool ++ [x] } =
      some ({ s with activeObjects := insert x s.activeObjects }, x) := by
  unfold acquire
  simp only [List.getLast?_concat, List.dropLast_concat]

/-- The structural invariant of a pool: the free list has no duplicates,
is disjoint from the active set, and every managed id was produced by the
factory counter. -/
def PoolInv (s : ObjectPool) : Prop :=
  s.pool.Nodup ∧
  (∀ id ∈ s.pool, id ∉ s.activeObjects) ∧
  (∀ id ∈ s.pool, id < s.factoryCount) ∧
  (∀ id ∈ s.activeObjects, id < s.factoryCount)

theorem poolInv_mkPool (cfg : PoolConfig) : PoolInv (mkPool cfg) := by
  refine ⟨by simpa [mkPool] using List.nodup_range cfg.initialSize, ?_, ?_, ?_⟩ <;> intro id hid
  · simp [mkPool]
  · simpa [mkPool] using hid
  · simp [mkPool] at hid

theorem poolInv_stepOp (cfg : PoolConfig) (s : ObjectPool) (op : PoolOp)
    (h : PoolInv s) : PoolInv (stepOp cfg s op) := by
  obtain ⟨hnd, hdisj, hpb, hab⟩ := h
  cases op with
  | acquireOp =>
      unfold stepOp acquire
      cases hlast : s.pool.getLast? with
      | none =>
          by_cases hguard : ¬cfg.autoExpand ∨ cfg.maxSize ≤ totalSize s
          · simp only [hguard, if_pos]
            exact ⟨hnd, hdisj, hpb, hab⟩
          · simp only [hguard, if_neg, not_false_iff]
            have hnil : s.pool = [] := List.getLast?_eq_none_iff.mp hlast
            refine ⟨by simp [hnil], ?_, ?_, ?_⟩
            · intro id hid; rw [hnil] at hid; exact absurd hid (List.not_mem_nil id)
            · intro id hid; rw [hnil] at hid; exact absurd hid (List.not_mem_nil id)
            · intro id hid
              rcases Finset.mem_insert.mp hid with h1 | h1
              · subst h1; exact Nat.lt_succ_self s.factoryCount
              · exact Nat.lt_succ_of_lt (hab id h1)
      | some object =>
          simp only
          have hne : s.pool ≠ [] := by
            intro hnil; rw [hnil] at hlast; simp at hlast
          have hsplit : s.pool.dropLast ++ [s.pool.getLast hne] = s.pool :=
            List.dropLast_append_getLast hne
          have hobj : s.pool.getLast hne = object := by
            have := List.getLast?_eq_getLast s.pool hne
            rw [this] at hlast; exact Option.some.inj hlast
          rw [hobj] at hsplit
          have hmem : object ∈ s.pool := by
            rw [← hsplit]; exact List.mem_append_right _ (List.mem_singleton_self object)
          have hnotdrop : object ∉ s.pool.dropLast := by
            intro hcontra
            have := hsplit ▸ hnd
            rcases List.nodup_append.mp this with ⟨_, _, hdisj2⟩
            exact hdisj2 hcontra (List.mem_singleton_self object)
          refine ⟨?_, ?_, ?_, ?_⟩
          · exact List.Nodup.sublist (List.dropLast_sublist s.pool) hnd
          · intro id hid
            have hidpool : id ∈ s.pool := (List.dropLast_sublist s.pool).mem hid
            intro hins
            rcases Finset.mem_insert.mp hins with h1 | h1
            · exact hnotdrop (h1 ▸ hid)
            · exact hdisj id hidpool h1
          · intro id hid
            exact hpb id ((List.dropLast_sublist s.pool).mem hid)
          · intro id hid
            rcases Finset.mem_insert.mp hid with h1 | h1
            · exact h1 ▸ hpb object hmem
            · exact hab id h1
  | releaseOp object =>
      unfold stepOp release
      by_cases hmem : object ∉ s.activeObjects
      · simp only [hmem, if_pos]
        exact ⟨hnd, hdisj, hpb, hab⟩
      · simp only [hmem, if_neg, not_false_iff]
        push_neg at hmem
        cases hreset : cfg.resetFn (s.store object) with
        | none => exact ⟨hnd, hdisj, hpb, hab⟩
        | some v =>
            have hnotpool : object ∉ s.pool := fun hc => hdisj object hc hmem
            refine ⟨?_, ?_, ?_, ?_⟩
            · rw [List.nodup_append]
              exact ⟨hnd, List.nodup_singleton object,
                fun a ha hb => (List.mem_singleton.mp hb ▸ hnotpool) ha⟩
            · intro id hid
              rcases List.mem_append.mp hid with h1 | h1
              · intro hc; exact hdisj id h1 (Finset.mem_of_mem_erase hc)
              · rw [List.mem_singleton.mp h1]; exact Finset.not_mem_erase object _
            · intro id hid
              rcases List.mem_append.mp hid with h1 | h1
              · exact hpb id h1
              · rw [List.mem_singleton.mp h1]; exact hab object hmem
            · intro id hid
              exact hab id (Finset.mem_of_mem_erase hid)

theorem poolInv_runOps (cfg : PoolConfig) (s : ObjectPool) (ops : List PoolOp)
    (h : PoolInv s) : PoolInv (runOps cfg s ops) := by
  induction ops generalizing s with
  | nil => exact h
  | cons op ops ih => exact ih _ (poolInv_stepOp cfg s op h)

end ObjectPool

/-! ### ParticleSystem.createExplosion (src/unnamed/part_000, lines 107-137)

Only the evolution of `this.particles.size` is modelled: every iteration
constructs a fresh `Particle` object (`new Particle({...})`, a fresh JS
identity), so each `this.particles.add(particle)` grows the `Set` by
exactly one; the particle payload (position, randomized velocity, color,
lifetime) does not influence the count. -/

namespace ParticleSystem

/-- `DEFAULT_CONFIG` of the particle system (the fields the count logic
uses). -/
structure PSConfig where
  MAX_PARTICLES : Nat
  BATCH_SIZE : Nat

/-- The `for (let i = 0; i < count; i++)` loop of `createExplosion`:
each iteration first checks `if (this.particles.size >= MAX_PARTICLES) break`
and otherwise adds one fresh particle to the set. -/
def explosionLoop (maxParticles : Nat) : Nat → Nat → Nat
  | size, 0 => size
  | size, n + 1 =>
      if maxParticles ≤ size then size else explosionLoop maxParticles (size + 1) n

/-- `createExplosion(x, y, {count})` starting from `activeCount` live
particles: the resulting `this.particles.size`.  The function neither
throws nor queues anything (the pre-loop overflow check only emits
`console.warn`). -/
def createExplosionCount (cfg : PSConfig) (activeCount count : Nat) : Nat :=
  explosionLoop cfg.MAX_PARTICLES activeCount count

/-- Closed form of the emission loop: starting below the cap it fills up to
`min maxParticles (size + n)`. -/
theorem explosionLoop_eq (maxParticles : Nat) :
    ∀ (k n : Nat), k ≤ maxParticles →
      explosionLoop maxParticles k n = min maxParticles (k + n) := by
  intro k n
  induction n generalizing k with
  | zero =>
      intro h
      unfold explosionLoop
      omega
  | succ n ih =>
      intro h
      unfold explosionLoop
      by_cases hc : maxParticles ≤ k
      · rw [if_pos hc]
        omega
      · rw [if_neg hc]
        rw [ih (k + 1) (by omega)]
        omega

end ParticleSystem

/-! ### Pooled Particle (src/unnamed/part_000, lines 248-430)

The `effects/Particle` class with the class-static pool
(`static #pool = []`, `static #poolSize = 1000`). -/

/-- `Particle.#poolSize`. -/
def PARTICLE_POOL_SIZE : Nat := 1000

/-- A pooled particle's mutable fields (`constructor` field list). -/
structure PParticle where
  x : ℚ
  y : ℚ
  vx : ℚ
  vy : ℚ
  size : ℚ
  alpha : ℚ
  gravity : ℚ
  drag : ℚ
  lifetime : ℚ
  elapsed : ℚ
  active : Bool
  deriving DecidableEq

namespace PParticle

/-- `static recycle(particle)`: pushes the particle onto the class-static
pool unless the pool is already at `#poolSize`. -/
def recycle (pool : List PParticle) (p : PParticle) : List PParticle :=
  if pool.length < PARTICLE_POOL_SIZE then pool ++ [p] else pool

/-- `update(deltaTime)` of the pooled particle, lines 370-396.  Returns the
particle after the call, the class-static pool after the call, and the
boolean result.  When the particle expires (`elapsed >= lifetime`) the
method itself calls `Particle.recycle(this)` before returning `false`. -/
def update (p : PParticle) (pool : List PParticle) (deltaTime : ℚ) :
    PParticle × List PParticle × Bool :=
  if p.active = false then (p, pool, false)
  else
    let p1 := { p with elapsed := p.elapsed + deltaTime }
    if p1.lifetime ≤ p1.elapsed then
      let p2 := { p1 with active := false }
      (p2, recycle pool p2, false)
    else
      let p2 := { p1 with x := p1.x + p1.vx, y := p1.y + p1.vy }
      let p3 := { p2 with vy := p2.vy + p2.gravity }
      let p4 := { p3 with vx := p3.vx * p3.drag, vy := p3.vy * p3.drag }
      let p5 := { p4 with alpha := 1 - p4.elapsed / p4.lifetime }
      (p5, pool, true)

end PParticle

/-! ### ExplosionEffect Particle (src/src/effects/ExplosionEffect.js) -/

/-- `DEFAULT_CONFIG.GRAVITY` of the explosion effect. -/
def EXPLOSION_GRAVITY : ℚ := 98 / 100

/-- The `ExplosionEffect` particle's fields used by `update`. -/
structure EParticle where
  x : ℚ
  y : ℚ
  vx : ℚ
  vy : ℚ
  radius : ℚ
  lifetime : ℚ
  birth : ℚ
  alpha : ℚ
  deriving DecidableEq

namespace EParticle

/-- `update(deltaTime)` of the ExplosionEffect particle, lines 51-60:
advances position, applies gravity, sets
`alpha = Math.max(0, 1 - age / lifetime)` with `age = Date.now() - birth`
(the current clock reading is the explicit `now` argument), and returns
`age < lifetime`. -/
def update (p : EParticle) (deltaTime now : ℚ) : EParticle × Bool :=
  let p1 := { p with x := p.x + p.vx * deltaTime, y := p.y + p.vy * deltaTime }
  let p2 := { p1 with vy := p1.vy + EXPLOSION_GRAVITY * deltaTime * (1 / 1000) }
  let age := now - p2.birth
  let p3 := { p2 with alpha := max 0 (1 - age / p2.lifetime) }
  (p3, age < p3.lifetime)

end EParticle

/-! ### GameLoop (src/src/core/GameLoop.js) -/

/-- `const FIXED_TIME_STEP = 1000 / 60`. -/
def FIXED_TIME_STEP : ℚ := 1000 / 60

/-- `const MAX_FRAME_TIME = 250`. -/
def MAX_FRAME_TIME : ℚ := 250

/-- The loop's timing and FPS-counter state (`this.accumulator`,
`this.lastTime`, `this.running`, `this.fps`, `this.frameCount`,
`this.lastFPSUpdate`). -/
structure LoopState where
  running : Bool
  lastTime : ℚ
  accumulator : ℚ
  fps : Nat
  frameCount : Nat
  lastFPSUpdate : ℚ
  deriving DecidableEq

/-- Everything one `_loop(currentTime)` invocation does that is observable:
the state afterwards, the argument of each `this.update(...)` call in
order, whether `this.render` was invoked and with which alpha, whether an
error propagated out of `_loop`, and whether `requestAnimationFrame` was
called to schedule the next frame. -/
structure FrameResult where
  state : LoopState
  updateArgs : List ℚ
  renderCalled : Bool
  renderAlpha : ℚ
  errorEscaped : Bool
  scheduledNext : Bool
  deriving DecidableEq

/-- The `while (this.accumulator >= FIXED_TIME_STEP)` loop when the update
callback does not throw: returns the list of arguments passed to
`this.update` (each is `FIXED_TIME_STEP / 1000`) and the accumulator after
the loop. -/
def runUpdates (acc : ℚ) : List ℚ × ℚ :=
  if h : FIXED_TIME_STEP ≤ acc then
    let r := runUpdates (acc - FIXED_TIME_STEP)
    (FIXED_TIME_STEP / 1000 :: r.1, r.2)
  else
    ([], acc)
termination_by (⌊acc / FIXED_TIME_STEP⌋).toNat
decreasing_by
  have hstep : (0 : ℚ) < FIXED_TIME_STEP := by norm_num [FIXED_TIME_STEP]
  have hdiv : (acc - FIXED_TIME_STEP) / FIXED_TIME_STEP = acc / FIXED_TIME_STEP - 1 := by
    rw [sub_div, div_self hstep.ne']
  have h1 : (1 : ℚ) ≤ acc / FIXED_TIME_STEP := (one_le_div hstep).mpr h
  have h2 : (1 : ℤ) ≤ ⌊acc / FIXED_TIME_STEP⌋ := by
    exact_mod_cast Int.le_floor.mpr (by exact_mod_cast h1)
  rw [hdiv]
  have h3 : ⌊acc / FIXED_TIME_STEP - 1⌋ = ⌊acc / FIXED_TIME_STEP⌋ - 1 := by
    exact_mod_cast Int.floor_sub_int (acc / FIXED_TIME_STEP) 1
  rw [h3]
  omega

/-- One `_loop(currentTime)` invocation, lines 106-147.  `updateThrows`
(resp. `renderThrows`) models a user-supplied update (resp. render)
callback that throws when invoked.  On a throw, the catch block logs,
calls `this.stop()` (clearing `running`) and rethrows, so the trailing
`requestAnimationFrame` never runs and the error escapes `_loop`. -/
def gameLoopFrame (s : LoopState) (currentTime : ℚ) (updateThrows renderThrows : Bool) :
    FrameResult :=
  if s.running = false then
    { state := s, updateArgs := [], renderCalled := false, renderAlpha := 0
      errorEscaped := false, scheduledNext := false }
  else
    let frameTime := min (currentTime - s.lastTime) MAX_FRAME_TIME
    let frameCount1 := s.frameCount + 1
    let fpsState :=
      if (1000 : ℚ) ≤ currentTime - s.lastFPSUpdate then
        (frameCount1, 0, currentTime)
      else
        (s.fps, frameCount1, s.lastFPSUpdate)
    let acc1 := s.accumulator + frameTime
    if updateThrows = true ∧ FIXED_TIME_STEP ≤ acc1 then
      -- first update call throws: accumulator not yet decremented,
      -- stop() runs, error rethrown, no render, no next frame
      { state := { running := false, lastTime := currentTime, accumulator := acc1
                   fps := fpsState.1, frameCount := fpsState.2.1
                   lastFPSUpdate := fpsState.2.2 }
        updateArgs := [FIXED_TIME_STEP / 1000], renderCalled := false, renderAlpha := 0
        errorEscaped := true, scheduledNext := false }
    else
      let r := runUpdates acc1
      let alpha := r.2 / FIXED_TIME_STEP
      if renderThrows = true then
        { state := { running := false, lastTime := currentTime, accumulator := r.2
                     fps := fpsState.1, frameCount := fpsState.2.1
                     lastFPSUpdate := fpsState.2.2 }
          updateArgs := r.1, renderCalled := true, renderAlpha := alpha
          errorEscaped := true, scheduledNext := false }
      else
        { state := { running := true, lastTime := currentTime, accumulator := r.2
                     fps := fpsState.1, frameCount := fpsState.2.1
                     lastFPSUpdate := fpsState.2.2 }
          updateArgs := r.1, renderCalled := true, renderAlpha := alpha
          errorEscaped := false, scheduledNext := true }

/-- Every argument the while loop passes to the update callback is the
constant `FIXED_TIME_STEP / 1000`. -/
theorem runUpdates_args (acc : ℚ) :
    ∀ a ∈ (runUpdates acc).1, a = FIXED_TIME_STEP / 1000 := by
  induction acc using runUpdates.induct with
  | case1 acc h ih =>
      rw [runUpdates, dif_pos h]
      intro a ha
      rcases List.mem_cons.mp ha with h1 | h1
      · exact h1
      · exact ih a h1
  | case2 acc h =>
      rw [runUpdates, dif_neg h]
      intro a ha
      exact absurd ha (List.not_mem_nil a)

/-- The number of update calls the while loop makes is
`⌊accumulator / FIXED_TIME_STEP⌋` (0 when the accumulator is below one
step, including any negative value). -/
theorem runUpdates_length (acc : ℚ) :
    (runUpdates acc).1.length = (⌊acc / FIXED_TIME_STEP⌋).toNat := by
  have hstep : (0 : ℚ) < FIXED_TIME_STEP := by norm_num [FIXED_TIME_STEP]
  induction acc using runUpdates.induct with
  | case1 acc h ih =>
      rw [runUpdates, dif_pos h]
      have hdiv : (acc - FIXED_TIME_STEP) / FIXED_TIME_STEP = acc / FIXED_TIME_STEP - 1 := by
        rw [sub_div, div_self hstep.ne']
      have h1 : (1 : ℚ) ≤ acc / FIXED_TIME_STEP := (one_le_div hstep).mpr h
      have h2 : (1 : ℤ) ≤ ⌊acc / FIXED_TIME_STEP⌋ := by
        exact_mod_cast Int.le_floor.mpr (by exact_mod_cast h1)
      have h3 : ⌊acc / FIXED_TIME_STEP - 1⌋ = ⌊acc / FIXED_TIME_STEP⌋ - 1 := by
        exact_mod_cast Int.floor_sub_int (acc / FIXED_TIME_STEP) 1
      simp only [List.length_cons]
      rw [ih, hdiv, h3]
      omega
  | case2 acc h =>
      rw [runUpdates, dif_neg h]
      have h1 : acc / FIXED_TIME_STEP < 1 := by
        rw [div_lt_one hstep]
        exact lt_of_not_le h
      have h2 : ⌊acc / FIXED_TIME_STEP⌋ < 1 := by
        exact_mod_cast Int.floor_lt.mpr (by exact_mod_cast h1)
      simp only [List.length_nil]
      omega

/-- The accumulator after the while loop: the loop subtracts one
`FIXED_TIME_STEP` per update call and nothing else. -/
theorem runUpdates_acc (acc : ℚ) :
    (runUpdates acc).2 = acc - FIXED_TIME_STEP * (runUpdates acc).1.length := by
  induction acc using runUpdates.induct with
  | case1 acc h ih =>
      rw [runUpdates, dif_pos h]
      simp only [List.length_cons]
      rw [ih]
      push_cast
      ring
  | case2 acc h =>
      rw [runUpdates, dif_neg h]
      simp

/-! ### Claim theorems -/

/-- C1: for every sequence of acquire/release calls starting from a freshly
constructed pool (in particular every sequence that never releases an
un-acquired instance; a release of an un-acquired instance throws and
leaves the state unchanged), after every call
`activeSize + availableSize = totalSize`, the free list holds no
duplicates, and no managed instance is in both the free list and the
active set — every managed instance is in exactly one of the two. -/
theorem c1_pool_conservation (cfg : PoolConfig) (ops : List ObjectPool.PoolOp) :
    ObjectPool.activeSize (ObjectPool.runOps cfg (ObjectPool.mkPool cfg) ops) +
        ObjectPool.availableSize (ObjectPool.runOps cfg (ObjectPool.mkPool cfg) ops) =
      ObjectPool.totalSize (ObjectPool.runOps cfg (ObjectPool.mkPool cfg) ops) ∧
    (ObjectPool.runOps cfg (ObjectPool.mkPool cfg) ops).pool.Nodup ∧
    ∀ id, ¬(id ∈ (ObjectPool.runOps cfg (ObjectPool.mkPool cfg) ops).pool ∧
            id ∈ (ObjectPool.runOps cfg (ObjectPool.mkPool cfg) ops).activeObjects) := by
  have hinv := ObjectPool.poolInv_runOps cfg (ObjectPool.mkPool cfg) ops
    (ObjectPool.poolInv_mkPool cfg)
  obtain ⟨hnd, hdisj, -, -⟩ := hinv
  refine ⟨Nat.add_comm _ _, hnd, ?_⟩
  rintro id ⟨hpool, hactive⟩
  exact hdisj id hpool hactive

/-- The pool of concrete scenario 1:
`ObjectPool(factory, initialSize=10, maxSize=10, autoExpand=false)`. -/
def c2cfg : PoolConfig :=
  PoolOptions.derive
    { reset := none, factoryVal := 0, initialSize := some 10, maxSize := some 10
      autoExpand := some false }

/-- C2: `acquire` succeeds exactly when the free list is non-empty or the
pool may auto-expand below `maxSize`; with a free instance available it
returns that instance (the popped tail of the free list), moving it to the
active set; and on the concrete scenario-1 pool (initialSize=10,
maxSize=10, autoExpand=false) ten acquires succeed while the eleventh
throws. -/
theorem c2_acquire_exhaustion :
    (∀ (cfg : PoolConfig) (s : ObjectPool),
        (ObjectPool.acquire cfg s).isSome = true ↔
          (s.pool ≠ [] ∨ (cfg.autoExpand = true ∧ ObjectPool.totalSize s < cfg.maxSize))) ∧
    (∀ (cfg : PoolConfig) (s : ObjectPool) (x : Nat),
        ObjectPool.acquire cfg { s with pool := s.pool ++ [x] } =
          some ({ s with activeObjects := insert x s.activeObjects }, x)) ∧
    (ObjectPool.acquireN c2cfg (ObjectPool.mkPool c2cfg) 10).isSome = true ∧
    (ObjectPool.acquireN c2cfg (ObjectPool.mkPool c2cfg) 11).isNone = true := by
  refine ⟨?_, ?_, by decide, by decide⟩
  · intro cfg s
    unfold ObjectPool.acquire
    cases hlast : s.pool.getLast? with
    | none =>
        have hnil : s.pool = [] := List.getLast?_eq_none_iff.mp hlast
        by_cases hguard : ¬cfg.autoExpand ∨ cfg.maxSize ≤ ObjectPool.totalSize s
        · rw [if_pos hguard]
          simp only [Option.isSome_none, Bool.false_eq_true, false_iff]
          rintro (hc | ⟨hexp, hlt⟩)
          · exact hc hnil
          · rcases hguard with hg | hg
            · exact absurd hexp (by simpa using hg)
            · omega
        · rw [if_neg hguard]
          simp only [Option.isSome_some, true_iff]
          push_neg at hguard
          right
          exact ⟨by simpa using hguard.1, hguard.2⟩
    | some object =>
        simp only [Option.isSome_some, true_iff]
        left
        intro hnil
        rw [hnil] at hlast
        simp at hlast
  · intro cfg s x
    exact ObjectPool.acquire_concat cfg s x

/-- A pool with the default (identity) reset function, `factory` producing
objects whose observable field is `0`, initialSize=1, maxSize=1,
autoExpand=false. -/
def c3cfg : PoolConfig :=
  PoolOptions.derive
    { reset := none, factoryVal := 0, initialSize := some 1, maxSize := some 1
      autoExpand := some false }

/-- Acquire the single pooled instance, have the caller set its observable
field to `5`, release it, and acquire again; record the returned id and its
field value. -/
def c3run : Option (Nat × Nat) :=
  (ObjectPool.acquire c3cfg (ObjectPool.mkPool c3cfg)).bind fun s1 =>
    (ObjectPool.release c3cfg
        { s1.1 with store := Function.update s1.1.store s1.2 5 } s1.2).bind fun s2 =>
      (ObjectPool.acquire c3cfg s2).map fun s3 => (s3.2, s3.1.store s3.2)

/-- C3 counterexample: with the constructor's default reset
(`(obj) => obj`, the identity), releasing a mutated instance and
re-acquiring it yields the instance with its pre-release field value `5`,
not the factory's neutral default `0` — the claim that every externally
observable field equals the pool's neutral reset defaults is false. -/
theorem c3_stale_state_counterexample : c3run = some (0, 5) ∧ (5 : Nat) ≠ 0 := by
  constructor
  · decide
  · decide

/-- C3 amended: `release` applies the configured reset function to the
instance before returning it to the free list, and an immediate re-acquire
returns the same instance whose field is exactly the reset function's
output — the neutral defaults are restored only insofar as the configured
reset function restores them (the default reset is the identity and
preserves the pre-release values). -/
theorem c3_release_reset_amended (cfg : PoolConfig) (s : ObjectPool)
    (id v : Nat) (hactive : id ∈ s.activeObjects)
    (hreset : cfg.resetFn (s.store id) = some v) :
    ∃ s2 s3, ObjectPool.release cfg s id = some s2 ∧
      ObjectPool.acquire cfg s2 = some (s3, id) ∧ s3.store id = v := by
  have hrel : ObjectPool.release cfg s id =
      some { s with store := Function.update s.store id v
                    activeObjects := s.activeObjects.erase id
                    pool := s.pool ++ [id] } := by
    unfold ObjectPool.release
    rw [if_neg (not_not_intro hactive), hreset]
  refine ⟨_, ⟨s.factoryCount, s.pool, insert id (s.activeObjects.erase id),
      Function.update s.store id v⟩, hrel, ?_, ?_⟩
  · exact ObjectPool.acquire_concat cfg
      { s with store := Function.update s.store id v
               activeObjects := s.activeObjects.erase id } id
  · simp only [Function.update_same]

/-- Witness for C3 amended: a concrete active instance with field `3`, a
reset function rewriting every field to `7`; release-then-acquire returns
it with field `7`. -/
theorem c3_release_reset_witness :
    ((0 : Nat) ∈ ({ factoryCount := 1, pool := [], activeObjects := {0}, store := fun _ => 3 } :
        ObjectPool).activeObjects) ∧
    (({ resetFn := fun _ => some 7, factoryVal := 0, initialSize := 0, maxSize := 1
        autoExpand := false } : PoolConfig).resetFn
      (({ factoryCount := 1, pool := [], activeObjects := {0}, store := fun _ => 3 } :
        ObjectPool).store 0) = some 7) ∧
    (∃ s2 s3,
      ObjectPool.release
          { resetFn := fun _ => some 7, factoryVal := 0, initialSize := 0, maxSize := 1
            autoExpand := false }
          { factoryCount := 1, pool := [], activeObjects := {0}, store := fun _ => 3 } 0 =
        some s2 ∧
      ObjectPool.acquire
          { resetFn := fun _ => some 7, factoryVal := 0, initialSize := 0, maxSize := 1
            autoExpand := false } s2 = some (s3, 0) ∧
      s3.store 0 = 7) :=
  ⟨by decide, rfl, c3_release_reset_amended _ _ 0 7 (by decide) rfl⟩

/-- C10: when the configured reset function throws on an active instance,
`release` throws a wrapped error (`none`) and the pool is untouched: the
state after the call equals the state before it, so `availableSize`,
`activeSize` and `totalSize` are unchanged, the instance is still in the
active set, and the free list did not gain it. -/
theorem c10_release_atomic (cfg : PoolConfig) (s : ObjectPool)
    (id : Nat) (hactive : id ∈ s.activeObjects)
    (hreset : cfg.resetFn (s.store id) = none) :
    ObjectPool.release cfg s id = none ∧
    ObjectPool.stepOp cfg s (.releaseOp id) = s ∧
    ObjectPool.availableSize (ObjectPool.stepOp cfg s (.releaseOp id)) =
      ObjectPool.availableSize s ∧
    ObjectPool.activeSize (ObjectPool.stepOp cfg s (.releaseOp id)) =
      ObjectPool.activeSize s ∧
    ObjectPool.totalSize (ObjectPool.stepOp cfg s (.releaseOp id)) =
      ObjectPool.totalSize s ∧
    id ∈ (ObjectPool.stepOp cfg s (.releaseOp id)).activeObjects ∧
    (ObjectPool.stepOp cfg s (.releaseOp id)).pool = s.pool := by
  have hrel : ObjectPool.release cfg s id = none := by
    unfold ObjectPool.release
    rw [if_neg (not_not_intro hactive), hreset]
  have hstep : ObjectPool.stepOp cfg s (.releaseOp id) = s := by
    simp only [ObjectPool.stepOp, hrel]
  refine ⟨hrel, hstep, ?_, ?_, ?_, ?_, ?_⟩ <;> rw [hstep]
  exact hactive

/-- C4 counterexample: on a frame with accumulator 20ms past one fixed
step, the single update invocation receives `1/60` — the constant
`FIXED_TIME_STEP / 1000` (the step converted to seconds) — which is not
the fixed step value `FIXED_TIME_STEP` (= 1000/60 ms) itself. -/
theorem c4_fixed_step_counterexample :
    (gameLoopFrame ⟨true, 0, 0, 0, 0, 0⟩ 20 false false).updateArgs = [1 / 60] ∧
    ((1 : ℚ) / 60) ≠ FIXED_TIME_STEP := by
  constructor
  · have h2 : runUpdates (20 - FIXED_TIME_STEP) = ([], 20 - FIXED_TIME_STEP) := by
      rw [runUpdates, dif_neg (by norm_num [FIXED_TIME_STEP])]
    have h1 : runUpdates 20 = ([FIXED_TIME_STEP / 1000], 20 - FIXED_TIME_STEP) := by
      rw [runUpdates, dif_pos (by norm_num [FIXED_TIME_STEP]), h2]
    have hacc : (0 : ℚ) + min (20 - 0) MAX_FRAME_TIME = 20 := by
      norm_num [MAX_FRAME_TIME]
    simp only [gameLoopFrame, hacc, h1]
    norm_num [FIXED_TIME_STEP]
  · norm_num [FIXED_TIME_STEP]

/-- C4 amended: on every scheduled frame of a running loop, the number of
update-callback invocations equals
`floor(accumulator-after-adding-the-frame-delta / FIXED_TIME_STEP)`, and
every invocation receives the same constant argument — which is
`FIXED_TIME_STEP / 1000` (the fixed step converted to seconds), never a
variable delta. -/
theorem c4_fixed_step_amended (lastTime acc : ℚ) (fps frameCount : Nat)
    (lastFPSUpdate t : ℚ) :
    (gameLoopFrame ⟨true, lastTime, acc, fps, frameCount, lastFPSUpdate⟩ t
        false false).updateArgs.length =
      (⌊(acc + min (t - lastTime) MAX_FRAME_TIME) / FIXED_TIME_STEP⌋).toNat ∧
    (gameLoopFrame ⟨true, lastTime, acc, fps, frameCount, lastFPSUpdate⟩ t
        false false).updateArgs =
      List.replicate
        (gameLoopFrame ⟨true, lastTime, acc, fps, frameCount, lastFPSUpdate⟩ t
          false false).updateArgs.length
        (FIXED_TIME_STEP / 1000) := by
  have hframe : (gameLoopFrame ⟨true, lastTime, acc, fps, frameCount, lastFPSUpdate⟩ t
      false false).updateArgs =
      (runUpdates (acc + min (t - lastTime) MAX_FRAME_TIME)).1 := by
    simp [gameLoopFrame]
  rw [hframe]
  refine ⟨runUpdates_length _, List.eq_replicate_iff.mpr ⟨rfl, runUpdates_args _⟩⟩

/-- C5: the elapsed real time entering the accumulator is clamped to
`MAX_FRAME_TIME` (`frameTime = min(currentTime − lastTime, MAX_FRAME_TIME)`;
the excess is discarded, never simulated), so any frame that starts with
less than one fixed step accumulated makes at most
`floor(MAX_FRAME_TIME / FIXED_TIME_STEP) = 15` update calls however much
real time elapsed. -/
theorem c5_frame_clamp (lastTime acc : ℚ) (fps frameCount : Nat)
    (lastFPSUpdate t : ℚ) (h0 : 0 ≤ acc) (h1 : acc < FIXED_TIME_STEP) :
    (gameLoopFrame ⟨true, lastTime, acc, fps, frameCount, lastFPSUpdate⟩ t
        false false).updateArgs.length ≤ (⌊MAX_FRAME_TIME / FIXED_TIME_STEP⌋).toNat ∧
    (⌊MAX_FRAME_TIME / FIXED_TIME_STEP⌋).toNat = 15 ∧
    (gameLoopFrame ⟨true, lastTime, acc, fps, frameCount, lastFPSUpdate⟩ t
        false false).state.accumulator =
      acc + min (t - lastTime) MAX_FRAME_TIME -
        FIXED_TIME_STEP *
          (gameLoopFrame ⟨true, lastTime, acc, fps, frameCount, lastFPSUpdate⟩ t
            false false).updateArgs.length := by
  have hstep : (0 : ℚ) < FIXED_TIME_STEP := by norm_num [FIXED_TIME_STEP]
  have hframe : (gameLoopFrame ⟨true, lastTime, acc, fps, frameCount, lastFPSUpdate⟩ t
      false false).updateArgs =
      (runUpdates (acc + min (t - lastTime) MAX_FRAME_TIME)).1 := by
    simp [gameLoopFrame]
  have hacc : (gameLoopFrame ⟨true, lastTime, acc, fps, frameCount, lastFPSUpdate⟩ t
      false false).state.accumulator =
      (runUpdates (acc + min (t - lastTime) MAX_FRAME_TIME)).2 := by
    simp [gameLoopFrame]
  have hmax15 : (⌊MAX_FRAME_TIME / FIXED_TIME_STEP⌋).toNat = 15 := by
    have h15 : MAX_FRAME_TIME / FIXED_TIME_STEP = (15 : ℚ) := by
      norm_num [MAX_FRAME_TIME, FIXED_TIME_STEP]
    rw [h15]
    have hf : ⌊(15 : ℚ)⌋ = 15 := by norm_num
    rw [hf]
    decide
  refine ⟨?_, hmax15, ?_⟩
  · rw [hframe, runUpdates_length, hmax15]
    have hmin : min (t - lastTime) MAX_FRAME_TIME ≤ MAX_FRAME_TIME := min_le_right _ _
    have hlt : (acc + min (t - lastTime) MAX_FRAME_TIME) / FIXED_TIME_STEP < 16 := by
      rw [div_lt_iff₀ hstep]
      have : (16 : ℚ) * FIXED_TIME_STEP = FIXED_TIME_STEP + MAX_FRAME_TIME := by
        norm_num [FIXED_TIME_STEP, MAX_FRAME_TIME]
      rw [this]
      linarith
    have hfl : ⌊(acc + min (t - lastTime) MAX_FRAME_TIME) / FIXED_TIME_STEP⌋ < 16 :=
      Int.floor_lt.mpr (by exact_mod_cast hlt)
    omega
  · rw [hacc, hframe, runUpdates_acc]

/-- Witness for C5: a frame that delivers 500ms of real time onto an empty
accumulator performs at most 15 update calls (the clamp to 250ms). -/
theorem c5_frame_clamp_witness :
    ((0 : ℚ) ≤ 0 ∧ (0 : ℚ) < FIXED_TIME_STEP) ∧
    ((gameLoopFrame ⟨true, 0, 0, 0, 0, 0⟩ 500 false false).updateArgs.length ≤
        (⌊MAX_FRAME_TIME / FIXED_TIME_STEP⌋).toNat ∧
      (⌊MAX_FRAME_TIME / FIXED_TIME_STEP⌋).toNat = 15 ∧
      (gameLoopFrame ⟨true, 0, 0, 0, 0, 0⟩ 500 false false).state.accumulator =
        0 + min (500 - 0) MAX_FRAME_TIME -
          FIXED_TIME_STEP *
            (gameLoopFrame ⟨true, 0, 0, 0, 0, 0⟩ 500 false false).updateArgs.length) :=
  ⟨⟨le_refl 0, by norm_num [FIXED_TIME_STEP]⟩,
    c5_frame_clamp 0 0 0 0 0 500 (le_refl 0) (by norm_num [FIXED_TIME_STEP])⟩

/-- C6: starting from `activeCount ≤ MAX_PARTICLES` live particles,
`createExplosion` with a requested count of `n` leaves exactly
`min(MAX_PARTICLES, activeCount + n)` live particles — never more than the
cap; the surplus requests are silently dropped (the function is total: it
neither throws nor queues, the pre-loop overflow check only warns). -/
theorem c6_emission_cap (cfg : ParticleSystem.PSConfig) (k n : Nat)
    (h : k ≤ cfg.MAX_PARTICLES) :
    ParticleSystem.createExplosionCount cfg k n = min cfg.MAX_PARTICLES (k + n) ∧
    ParticleSystem.createExplosionCount cfg k n ≤ cfg.MAX_PARTICLES := by
  have heq := ParticleSystem.explosionLoop_eq cfg.MAX_PARTICLES k n h
  unfold ParticleSystem.createExplosionCount
  rw [heq]
  omega

/-- Witness for C6: requesting 1500 particles on an empty system capped at
1000 yields exactly 1000 live particles. -/
theorem c6_emission_cap_witness :
    (0 : Nat) ≤ (⟨1000, 100⟩ : ParticleSystem.PSConfig).MAX_PARTICLES ∧
    (ParticleSystem.createExplosionCount ⟨1000, 100⟩ 0 1500 =
        min (⟨1000, 100⟩ : ParticleSystem.PSConfig).MAX_PARTICLES (0 + 1500) ∧
      ParticleSystem.createExplosionCount ⟨1000, 100⟩ 0 1500 ≤
        (⟨1000, 100⟩ : ParticleSystem.PSConfig).MAX_PARTICLES) :=
  ⟨Nat.zero_le _, c6_emission_cap ⟨1000, 100⟩ 0 1500 (Nat.zero_le _)⟩

/-- C7 counterexample: a pooled particle whose age reaches its lifetime
during `update` pushes ITSELF onto the class-static pool inside `update`
(the pool grows from empty to exactly the updated particle) — the claim
that the return to the pool is performed only by the caller and that the
particle does not return itself is false. -/
theorem c7_self_recycle_counterexample :
    (PParticle.update ⟨0, 0, 0, 0, 2, 1, 0, 98/100, 100, 0, true⟩ [] 100).2.1 =
      [(PParticle.update ⟨0, 0, 0, 0, 2, 1, 0, 98/100, 100, 0, true⟩ [] 100).1] ∧
    (PParticle.update ⟨0, 0, 0, 0, 2, 1, 0, 98/100, 100, 0, true⟩ [] 100).2.2 = false := by
  constructor
  · norm_num [PParticle.update, PParticle.recycle, PARTICLE_POOL_SIZE]
  · norm_num [PParticle.update, PParticle.recycle, PARTICLE_POOL_SIZE]

/-- C7 amended: `update(deltaTime)` on an active particle advances
`elapsed` by `deltaTime`, and as soon as `elapsed ≥ lifetime` it
deactivates the particle and returns false — but the particle returns
ITSELF to the class-static pool via `Particle.recycle(this)` inside
`update`; recycling on expiry is not left to the caller (the pool is class
state, not an instance back-reference). -/
theorem c7_particle_expiry_amended (p : PParticle) (pool : List PParticle) (dt : ℚ)
    (hact : p.active = true) (hexp : p.lifetime ≤ p.elapsed + dt) :
    PParticle.update p pool dt =
      ({ p with elapsed := p.elapsed + dt, active := false },
       PParticle.recycle pool { p with elapsed := p.elapsed + dt, active := false },
       false) := by
  unfold PParticle.update
  rw [hact]
  rw [if_neg (by decide : ¬((true : Bool) = false))]
  dsimp only
  rw [if_pos hexp]

/-- Witness for C7 amended: a concrete active particle with lifetime 100ms
expiring on a 150ms update. -/
theorem c7_particle_expiry_witness :
    ((⟨0, 0, 0, 0, 2, 1, 0, 98/100, 100, 0, true⟩ : PParticle).active = true ∧
      (⟨0, 0, 0, 0, 2, 1, 0, 98/100, 100, 0, true⟩ : PParticle).lifetime ≤
        (⟨0, 0, 0, 0, 2, 1, 0, 98/100, 100, 0, true⟩ : PParticle).elapsed + 150) ∧
    PParticle.update ⟨0, 0, 0, 0, 2, 1, 0, 98/100, 100, 0, true⟩ [] 150 =
      ({ (⟨0, 0, 0, 0, 2, 1, 0, 98/100, 100, 0, true⟩ : PParticle) with
          elapsed := (⟨0, 0, 0, 0, 2, 1, 0, 98/100, 100, 0, true⟩ : PParticle).elapsed + 150,
          active := false },
       PParticle.recycle []
         { (⟨0, 0, 0, 0, 2, 1, 0, 98/100, 100, 0, true⟩ : PParticle) with
            elapsed := (⟨0, 0, 0, 0, 2, 1, 0, 98/100, 100, 0, true⟩ : PParticle).elapsed + 150,
            active := false },
       false) :=
  ⟨⟨rfl, by norm_num⟩,
    c7_particle_expiry_amended _ [] 150 rfl (by norm_num)⟩

/-- C8: alpha stays within [0, 1]: a pooled particle that survives an
`update` with forward-moving time (`0 ≤ deltaTime`, age so far
nonnegative) ends the update with
`alpha = 1 − elapsed/lifetime ∈ [0, 1]`, and an ExplosionEffect particle
updated at any clock reading not before its birth (with positive lifetime)
ends with `alpha = max(0, 1 − age/lifetime) ∈ [0, 1]`. -/
theorem c8_alpha_bound (p : PParticle) (pool : List PParticle) (dt : ℚ)
    (q : EParticle) (dtq now : ℚ)
    (hel : 0 ≤ p.elapsed) (hdt : 0 ≤ dt)
    (halive : (PParticle.update p pool dt).2.2 = true)
    (hbirth : q.birth ≤ now) (hlife : 0 < q.lifetime) :
    (0 ≤ (PParticle.update p pool dt).1.alpha ∧
      (PParticle.update p pool dt).1.alpha ≤ 1) ∧
    (0 ≤ (EParticle.update q dtq now).1.alpha ∧
      (EParticle.update q dtq now).1.alpha ≤ 1) := by
  constructor
  · unfold PParticle.update at halive ⊢
    by_cases hact : p.active = false
    · rw [if_pos hact] at halive
      simp at halive
    · rw [if_neg hact] at halive ⊢
      dsimp only at halive ⊢
      by_cases hcond : p.lifetime ≤ p.elapsed + dt
      · rw [if_pos hcond] at halive
        simp at halive
      · rw [if_neg hcond] at halive ⊢
        dsimp only
        push_neg at hcond
        have hnn : 0 ≤ p.elapsed + dt := add_nonneg hel hdt
        have hl : 0 < p.lifetime := lt_of_le_of_lt hnn hcond
        constructor
        · have hlt1 : (p.elapsed + dt) / p.lifetime < 1 := (div_lt_one hl).mpr hcond
          linarith
        · have hge0 : 0 ≤ (p.elapsed + dt) / p.lifetime := div_nonneg hnn hl.le
          linarith
  · unfold EParticle.update
    dsimp only
    constructor
    · exact le_max_left 0 _
    · refine max_le (by norm_num) ?_
      have hge0 : 0 ≤ (now - q.birth) / q.lifetime :=
        div_nonneg (by linarith) hlife.le
      linarith

/-- Witness for C8: a live pooled particle 10ms into a 100ms lifetime and
an explosion particle read at 50ms of a 100ms lifetime. -/
theorem c8_alpha_bound_witness :
    ((0 : ℚ) ≤ (⟨0, 0, 0, 0, 2, 1, 0, 98/100, 100, 0, true⟩ : PParticle).elapsed ∧
      (0 : ℚ) ≤ 10 ∧
      (PParticle.update ⟨0, 0, 0, 0, 2, 1, 0, 98/100, 100, 0, true⟩ [] 10).2.2 = true ∧
      (⟨0, 0, 0, 0, 3, 100, 0, 1⟩ : EParticle).birth ≤ 50 ∧
      (0 : ℚ) < (⟨0, 0, 0, 0, 3, 100, 0, 1⟩ : EParticle).lifetime) ∧
    ((0 ≤ (PParticle.update ⟨0, 0, 0, 0, 2, 1, 0, 98/100, 100, 0, true⟩ [] 10).1.alpha ∧
        (PParticle.update ⟨0, 0, 0, 0, 2, 1, 0, 98/100, 100, 0, true⟩ [] 10).1.alpha ≤ 1) ∧
      (0 ≤ (EParticle.update ⟨0, 0, 0, 0, 3, 100, 0, 1⟩ 5 50).1.alpha ∧
        (EParticle.update ⟨0, 0, 0, 0, 3, 100, 0, 1⟩ 5 50).1.alpha ≤ 1)) :=
  ⟨⟨by norm_num, by norm_num, by norm_num [PParticle.update], by norm_num, by norm_num⟩,
    c8_alpha_bound _ [] 10 _ 5 50 (by norm_num) (by norm_num)
      (by norm_num [PParticle.update]) (by norm_num) (by norm_num)⟩

/-- C9 counterexample: on a frame whose update callback throws, the error
propagates out of `_loop` (the catch block logs, calls `stop()` and then
rethrows `throw error`) — the claim that the error is never allowed to
escape the per-frame callback is false. -/
theorem c9_error_escape_counterexample :
    (gameLoopFrame ⟨true, 0, 0, 0, 0, 0⟩ 20 true false).errorEscaped = true := by
  norm_num [gameLoopFrame, FIXED_TIME_STEP, MAX_FRAME_TIME]

/-- C9 amended: an error thrown by the update callback (on a frame that
performs at least one update call) or by the render callback is caught by
the scheduler, the loop is stopped (running flag cleared, no further frame
scheduled, and a subsequent frame callback does nothing), and the error is
then rethrown, escaping the per-frame callback. -/
theorem c9_error_fatal_amended (lastTime acc : ℚ) (fps frameCount : Nat)
    (lastFPSUpdate t t2 : ℚ) (b1 b2 : Bool)
    (h : FIXED_TIME_STEP ≤ acc + min (t - lastTime) MAX_FRAME_TIME) :
    (gameLoopFrame ⟨true, lastTime, acc, fps, frameCount, lastFPSUpdate⟩ t
        true false).errorEscaped = true ∧
    (gameLoopFrame ⟨true, lastTime, acc, fps, frameCount, lastFPSUpdate⟩ t
        true false).state.running = false ∧
    (gameLoopFrame ⟨true, lastTime, acc, fps, frameCount, lastFPSUpdate⟩ t
        true false).scheduledNext = false ∧
    (gameLoopFrame ⟨true, lastTime, acc, fps, frameCount, lastFPSUpdate⟩ t
        true false).updateArgs = [FIXED_TIME_STEP / 1000] ∧
    (gameLoopFrame ⟨true, lastTime, acc, fps, frameCount, lastFPSUpdate⟩ t
        true false).renderCalled = false ∧
    (gameLoopFrame ⟨true, lastTime, acc, fps, frameCount, lastFPSUpdate⟩ t
        false true).errorEscaped = true ∧
    (gameLoopFrame ⟨true, lastTime, acc, fps, frameCount, lastFPSUpdate⟩ t
        false true).state.running = false ∧
    (gameLoopFrame ⟨true, lastTime, acc, fps, frameCount, lastFPSUpdate⟩ t
        false true).scheduledNext = false ∧
    (gameLoopFrame ⟨true, lastTime, acc, fps, frameCount, lastFPSUpdate⟩ t
        false true).renderCalled = true ∧
    (gameLoopFrame
        (gameLoopFrame ⟨true, lastTime, acc, fps, frameCount, lastFPSUpdate⟩ t
          true false).state t2 b1 b2).updateArgs = [] ∧
    (gameLoopFrame
        (gameLoopFrame ⟨true, lastTime, acc, fps, frameCount, lastFPSUpdate⟩ t
          true false).state t2 b1 b2).renderCalled = false ∧
    (gameLoopFrame
        (gameLoopFrame ⟨true, lastTime, acc, fps, frameCount, lastFPSUpdate⟩ t
          true false).state t2 b1 b2).scheduledNext = false := by
  refine ⟨?_, ?_, ?_, ?_, ?_, ?_, ?_, ?_, ?_, ?_, ?_, ?_⟩ <;>
    simp [gameLoopFrame, h]

/-- Witness for C9 amended: a concrete 20ms frame whose callbacks throw. -/
theorem c9_error_fatal_witness :
    (FIXED_TIME_STEP ≤ 0 + min ((20 : ℚ) - 0) MAX_FRAME_TIME) ∧
    ((gameLoopFrame ⟨true, 0, 0, 0, 0, 0⟩ 20 true false).errorEscaped = true ∧
      (gameLoopFrame ⟨true, 0, 0, 0, 0, 0⟩ 20 true false).state.running = false ∧
      (gameLoopFrame ⟨true, 0, 0, 0, 0, 0⟩ 20 true false).scheduledNext = false ∧
      (gameLoopFrame ⟨true, 0, 0, 0, 0, 0⟩ 20 true false).updateArgs =
        [FIXED_TIME_STEP / 1000] ∧
      (gameLoopFrame ⟨true, 0, 0, 0, 0, 0⟩ 20 true false).renderCalled = false ∧
      (gameLoopFrame ⟨true, 0, 0, 0, 0, 0⟩ 20 false true).errorEscaped = true ∧
      (gameLoopFrame ⟨true, 0, 0, 0, 0, 0⟩ 20 false true).state.running = false ∧
      (gameLoopFrame ⟨true, 0, 0, 0, 0, 0⟩ 20 false true).scheduledNext = false ∧
      (gameLoopFrame ⟨true, 0, 0, 0, 0, 0⟩ 20 false true).renderCalled = true ∧
      (gameLoopFrame (gameLoopFrame ⟨true, 0, 0, 0, 0, 0⟩ 20 true false).state
        40 false false).updateArgs = [] ∧
      (gameLoopFrame (gameLoopFrame ⟨true, 0, 0, 0, 0, 0⟩ 20 true false).state
        40 false false).renderCalled = false ∧
      (gameLoopFrame (gameLoopFrame ⟨true, 0, 0, 0, 0, 0⟩ 20 true false).state
        40 false false).scheduledNext = false) :=
  ⟨by norm_num [FIXED_TIME_STEP, MAX_FRAME_TIME],
    c9_error_fatal_amended 0 0 0 0 0 20 40 false false
      (by norm_num [FIXED_TIME_STEP, MAX_FRAME_TIME])⟩

/-- Witness for C10: a concrete pool with one active instance and a reset
function that always throws. -/
theorem c10_release_atomic_witness :
    ((0 : Nat) ∈ ({ factoryCount := 1, pool := [], activeObjects := {0}, store := fun _ => 0 } :
        ObjectPool).activeObjects) ∧
    (({ resetFn := fun _ => none, factoryVal := 0, initialSize := 0, maxSize := 1
        autoExpand := false } : PoolConfig).resetFn
      (({ factoryCount := 1, pool := [], activeObjects := {0}, store := fun _ => 0 } :
        ObjectPool).store 0) = none) ∧
    (ObjectPool.release
        { resetFn := fun _ => none, factoryVal := 0, initialSize := 0, maxSize := 1
          autoExpand := false }
        { factoryCount := 1, pool := [], activeObjects := {0}, store := fun _ => 0 } 0 =
      none ∧
     ObjectPool.stepOp
        { resetFn := fun _ => none, factoryVal := 0, initialSize := 0, maxSize := 1
          autoExpand := false }
        { factoryCount := 1, pool := [], activeObjects := {0}, store := fun _ => 0 }
        (.releaseOp 0) =
      { factoryCount := 1, pool := [], activeObjects := {0}, store := fun _ => 0 }) :=
  ⟨by decide, rfl,
    (c10_release_atomic _ _ 0 (by decide) rfl).1,
    (c10_release_atomic _ _ 0 (by decide) rfl).2.1⟩

end SpaceInvaders
